import Mathlib

/-!
Verification development for the ftl sum-type / maybe library.

The C++ sources are embedded shallowly:
* `ftl::maybe<A>` (src/maybe.h) becomes the structure `Ftl.maybe`: the
  `isValid` flag is kept as a `Bool` and the raw storage union is kept as an
  `Option α` (`some v` when a live object `v` occupies the storage, `none`
  when the storage holds no constructed object).  Operations that can throw
  return an extra component describing the exception.
* `ftl::sum_type` is exercised by src/tests/sum_type_tests.cpp but its
  implementation header is not part of the sources at hand; its data model
  and operations are modelled from the specification (see the doc comments
  of the individual definitions).
* the `functor` instance for `std::unordered_map` (src/include/ftl/unordered_map.h)
  is embedded over association lists with pairwise distinct keys.
-/

set_option autoImplicit false

namespace Ftl

universe u v w

/-- Exceptions thrown by the modelled operations.  `maybe`'s accessors throw
`std::logic_error` with a message. -/
inductive CppError where
  | logic_error (msg : String)
deriving DecidableEq

/-- Model of `ftl::maybe<A>` (src/maybe.h).  `isValid` is the tag flag of the
class; `store` models the storage union: `some v` when a constructed value
lives in it, `none` when it holds only the uninitialised `dummy` bytes. -/
structure maybe (α : Type u) where
  isValid : Bool
  store : Option α
deriving DecidableEq

/-- `maybe()` / `maybe::nothing()` (src/maybe.h lines 67 and 220-222): the
flag is false and no value is constructed in the storage. -/
def maybe.nothing (α : Type u) : maybe α := ⟨false, none⟩

/-- `maybe(const value_type&)` / `ftl::value` (src/maybe.h lines 86-92 and
237-250): the flag is true and the storage holds the given value. -/
def maybe.value {α : Type u} (v : α) : maybe α := ⟨true, some v⟩

/-- Move constructor `maybe(maybe&& m)` (src/maybe.h lines 77-84): the new
object's flag copies `m.isValid`; when the source is valid, its value is
move-constructed into the new storage and then `m.isValid` is set to `false`.
Returns `(new object, source after the move)`.  The moved-from value is kept
abstract: the source's storage still holds an object until its destructor
runs. -/
def maybe.moveConstruct {α : Type u} (m : maybe α) : maybe α × maybe α :=
  if m.isValid then (⟨true, m.store⟩, ⟨false, m.store⟩)
  else (⟨m.isValid, none⟩, m)

/-- Copy assignment `operator=(const maybe& m)` (src/maybe.h lines 117-136).
`copyA v = none` models `A`'s copy constructor throwing on `v`.  `sameObj`
models the `this == &m` self-assignment test.  Following the source: after
the self-check, the current value is destroyed if present, `isValid` is
overwritten with `m.isValid`, and only then is the new value
copy-constructed in place.  Returns `(destination afterwards, exception
thrown?)`.  (The source's `return;` inside the self-check evidently stands
for `return *this;`.) -/
def maybe.copyAssign {α : Type u} (copyA : α → Option α) (sameObj : Bool)
    (dst src : maybe α) : maybe α × Bool :=
  if sameObj then (dst, false)
  else
    -- `if(isValid) val.~value_type();`
    let store1 : Option α := if dst.isValid then none else dst.store
    -- `isValid = m.isValid; if(isValid) new (&val) value_type(m.val);`
    if src.isValid then
      match src.store with
      | some v =>
        match copyA v with
        | some c => (⟨true, some c⟩, false)
        | none => (⟨true, store1⟩, true)
      | none => (⟨true, store1⟩, true)  -- unreachable for well-formed sources
    else (⟨false, store1⟩, false)

/-- Move assignment `operator=(maybe&& m)` (src/maybe.h lines 138-158).
After the self-check, the current value is destroyed if present, `isValid`
is overwritten with `m.isValid`, and when the source is valid its value is
move-constructed in place and `m.isValid` is set to `false`.  Returns
`(destination afterwards, source afterwards)`. -/
def maybe.moveAssign {α : Type u} (sameObj : Bool) (dst src : maybe α) :
    maybe α × maybe α :=
  if sameObj then (dst, src)
  else
    let store1 : Option α := if dst.isValid then none else dst.store
    if src.isValid then (⟨true, src.store⟩, ⟨false, src.store⟩)
    else (⟨false, store1⟩, src)

/-- Dereference `operator*` (src/maybe.h lines 180-195): throws
`std::logic_error` when invalid, otherwise returns the stored value.  The
state is returned alongside to express that the operation does not modify
the object. -/
def maybe.deref {α : Type u} (m : maybe α) : Except CppError α × maybe α :=
  if m.isValid = false then
    (.error (.logic_error "Attempting to read the value of Nothing."), m)
  else
    match m.store with
    | some v => (.ok v, m)
    | none => (.error (.logic_error "unreachable"), m)  -- ill-formed state

/-- Member access `operator->` (src/maybe.h lines 202-215): same guard as
`operator*` (the source's message spells "teh"), returning a pointer to the
stored value, modelled as the value itself. -/
def maybe.arrow {α : Type u} (m : maybe α) : Except CppError α × maybe α :=
  if m.isValid = false then
    (.error (.logic_error "Attempting to read teh value of Nothing."), m)
  else
    match m.store with
    | some v => (.ok v, m)
    | none => (.error (.logic_error "unreachable"), m)  -- ill-formed state

/-- `operator==` for maybe (src/maybe.h lines 257-268): if both are values,
compare the contained values with `A`'s equality `eqA`; if both are nothing,
true; otherwise false. -/
def maybe.beq {α : Type u} (eqA : α → α → Bool) (m1 m2 : maybe α) : Bool :=
  if m1.isValid && m2.isValid then
    match m1.store, m2.store with
    | some a, some b => eqA a b
    | _, _ => false  -- unreachable for well-formed arguments
  else if !m1.isValid && !m2.isValid then true
  else false

/-- `operator!=` for maybe (src/maybe.h lines 275-278): `!(m1 == m2)`. -/
def maybe.bne {α : Type u} (eqA : α → α → Bool) (m1 m2 : maybe α) : Bool :=
  !(maybe.beq eqA m1 m2)

/-- Modelled from the spec: the data model of `ftl::sum_type` (its header
`ftl/sum_type.h` is exercised by src/tests/sum_type_tests.cpp but is not
among the sources).  Spec §3: an instance is a tag in `[0, n)` together with
storage holding exactly the alternative identified by the tag; alternatives
are addressed by their position in the declared list. -/
structure sum_type (n : Nat) (T : Fin n → Type u) where
  tag : Fin n
  val : T tag

/-- Modelled from the spec: `is<T>()` of `ftl::sum_type` (header not among
the sources).  Alternative-index resolution maps the queried alternative to
its index `i`; the check is true iff `i` equals the active tag. -/
def sum_type.is {n : Nat} {T : Fin n → Type u} (s : sum_type n T) (i : Fin n) : Bool :=
  decide (s.tag = i)

/-- Modelled from the spec: `match(handlers...)` of `ftl::sum_type` with a
complete handler set (header not among the sources).  The statically
resolved handlers are one callable per alternative index; at runtime the one
for the active tag is invoked on the active value and its result returned. -/
def sum_type.matchWith {n : Nat} {T : Fin n → Type u} {R : Type v}
    (s : sum_type n T) (h : (i : Fin n) → T i → R) : R :=
  h s.tag s.val

/-- Modelled from the spec: `match(handlers...)` of `ftl::sum_type` with a
reduced handler set plus an `otherwise` fallback (header not among the
sources).  `h i = some g` means alternative `i` has the explicit handler
`g`; `h i = none` means it is only covered by the fallback. -/
def sum_type.matchOtherwise {n : Nat} {T : Fin n → Type u} {R : Type v}
    (s : sum_type n T) (h : (i : Fin n) → Option (T i → R)) (fallback : R) : R :=
  match h s.tag with
  | some g => g s.val
  | none => fallback

/-- Modelled from the spec: copy assignment of `ftl::sum_type` (header not
among the sources).  Spec §4.2: same tag — in-place assignment through the
alternative's own assignment operator `assignOp`; different tags — the new
value is fully materialised via the alternative's copy constructor
(`copyCtor`, where `none` models a throw) before the old one is destroyed,
so a throw leaves the destination untouched.  Returns `(destination
afterwards, exception thrown?)`. -/
def sum_type.copyAssign {n : Nat} {T : Fin n → Type u}
    (copyCtor : (i : Fin n) → T i → Option (T i))
    (assignOp : (i : Fin n) → T i → T i → T i)
    (dst src : sum_type n T) : sum_type n T × Bool :=
  if h : dst.tag = src.tag then
    (⟨src.tag, assignOp src.tag (h ▸ dst.val) src.val⟩, false)
  else
    match copyCtor src.tag src.val with
    | some v => (⟨src.tag, v⟩, false)
    | none => (dst, true)

/-- Compile-time triviality traits of one alternative type, the inputs of
the spec's classifier (§4.3): whether the type is trivially copyable,
trivially movable and trivially destructible. -/
structure AltTraits where
  trivially_copyable : Bool
  trivially_movable : Bool
  trivially_destructible : Bool
deriving DecidableEq

/-- One alternative is trivial when all three of its triviality traits
hold. -/
def AltTraits.is_trivial (a : AltTraits) : Bool :=
  a.trivially_copyable && a.trivially_movable && a.trivially_destructible

/-- Modelled from the spec: the triviality classifier of `ftl::sum_type`
(header not among the sources).  Spec §4.3: a definition is trivial iff
every alternative is trivially copyable, movable and destructible. -/
def sum_type_trivial (alts : List AltTraits) : Bool :=
  alts.all AltTraits.is_trivial

/-- Modelled from the spec: constant-evaluated usability of `ftl::sum_type`
(header not among the sources).  Spec §4.3: exactly the trivial sum types
are usable in constant-evaluated contexts. -/
def sum_type_constant_evaluable (alts : List AltTraits) : Bool :=
  sum_type_trivial alts

/-- Traits of `int`: a trivial type. -/
def intAlt : AltTraits := ⟨true, true, true⟩

/-- Traits of `char`: a trivial type. -/
def charAlt : AltTraits := ⟨true, true, true⟩

/-- Traits of the test fixture `NonTrivial`
(src/tests/sum_type_tests.cpp lines 60-72): defaulted copy and move
constructors but a user-provided destructor `~NonTrivial() {}`, so it is not
trivially destructible. -/
def nonTrivialAlt : AltTraits := ⟨true, true, false⟩

section UnorderedMap

variable {K : Type u} {V : Type v} {U : Type w} [DecidableEq K]

/-- `std::unordered_map::emplace` as used by the functor instance
(src/include/ftl/unordered_map.h): inserts `(k, u)` only when no entry with
key `k` is present.  The map is embedded as an association list whose entry
order stands for the container's (unspecified) iteration order. -/
def emplace (rm : List (K × U)) (k : K) (u : U) : List (K × U) :=
  if rm.any (fun kv => decide (kv.1 = k)) then rm else rm ++ [(k, u)]

/-- Key lookup in the association-list embedding: the value of the first
entry with the given key, `none` when absent. -/
def lookupKey (k : K) : List (K × V) → Option V
  | [] => none
  | kv :: rest => if kv.1 = k then some kv.2 else lookupKey k rest

/-- The keys of the embedded map, in iteration order. -/
def keysOf (m : List (K × V)) : List K := m.map Prod.fst

/-- `functor<unordered_map>::map`, const-lvalue overload
(src/include/ftl/unordered_map.h lines 103-111): builds a fresh map `rm` by
emplacing `(kv.first, f(kv.second))` for each entry of `m`, and leaves `m`
unchanged.  Returns `(result, source after the call)`. -/
def functor_map_const (f : V → U) (m : List (K × V)) :
    List (K × U) × List (K × V) :=
  (m.foldl (fun rm kv => emplace rm kv.1 (f kv.2)) [], m)

/-- `functor<unordered_map>::map`, rvalue overload for a new value type
(src/include/ftl/unordered_map.h lines 118-132): same loop, moving keys and
values out of the consumed map. -/
def functor_map_move (f : V → U) (m : List (K × V)) : List (K × U) :=
  m.foldl (fun rm kv => emplace rm kv.1 (f kv.2)) []

/-- `functor<unordered_map>::map`, rvalue endofunction overload
(src/include/ftl/unordered_map.h lines 139-151): iterates the consumed map
executing `m[kv.first] = f(std::move(kv.second))`.  Since keys are unique in
an `unordered_map`, `m[kv.first]` is the entry being visited, so each
entry's value is replaced by `f` of its previous value, in iteration
order. -/
def functor_map_endo (f : V → V) : List (K × V) → List (K × V)
  | [] => []
  | kv :: rest => (kv.1, f kv.2) :: functor_map_endo f rest

end UnorderedMap

/-- Handler set for a two-alternative sum type, one callable per
alternative, resolved to the indices of the alternatives they handle. -/
def handlers2 {A B : Type u} {R : Type v} (hA : A → R) (hB : B → R) :
    (i : Fin 2) → (![A, B] i) → R :=
  Fin.cons hA (Fin.cons hB (fun i => i.elim0))

/-- The reduced handler set of the fallback test
(src/tests/sum_type_tests.cpp lines 365-395): an explicit handler only for
alternative 0 (`A`), returning `0`; alternatives 1 (`B`) and 2 (`C`) are
covered only by the fallback. -/
def abcHandlers : (i : Fin 3) → Option (Unit → Nat) :=
  fun i => if i = 0 then some (fun _ => 0) else none

section UnorderedMapLemmas

variable {K : Type u} {V : Type v} {U : Type w} [DecidableEq K]

theorem emplace_of_not_mem {rm : List (K × U)} {k : K} (u : U)
    (h : k ∉ keysOf rm) : emplace rm k u = rm ++ [(k, u)] := by
  unfold emplace
  rw [if_neg]
  intro hany
  rw [List.any_eq_true] at hany
  obtain ⟨kv, hkv, hk⟩ := hany
  rw [decide_eq_true_eq] at hk
  exact h (hk ▸ List.mem_map_of_mem Prod.fst hkv)

theorem foldl_emplace_eq (f : V → U) (m : List (K × V)) :
    ∀ rm : List (K × U),
      (keysOf m).Nodup → (∀ k, k ∈ keysOf m → k ∉ keysOf rm) →
      m.foldl (fun rm kv => emplace rm kv.1 (f kv.2)) rm =
        rm ++ m.map (fun kv => (kv.1, f kv.2)) := by
  induction m with
  | nil => intro rm _ _; simp
  | cons kv rest ih =>
    intro rm hnd hdisj
    have hk : kv.1 ∉ keysOf rm := hdisj kv.1 (by simp [keysOf])
    have hnd2 : (keysOf rest).Nodup := by
      rw [keysOf, List.map_cons, List.nodup_cons] at hnd
      exact hnd.2
    have hhead : kv.1 ∉ keysOf rest := by
      rw [keysOf, List.map_cons, List.nodup_cons] at hnd
      exact hnd.1
    have hdisj2 : ∀ k, k ∈ keysOf rest →
        k ∉ keysOf (rm ++ [(kv.1, f kv.2)]) := by
      intro k hkrest hkmem
      rw [keysOf, List.map_append] at hkmem
      rcases List.mem_append.mp hkmem with hmem | hmem
      · exact hdisj k
          (by rw [keysOf, List.map_cons]; exact List.mem_cons_of_mem _ hkrest)
          hmem
      · rw [List.map_singleton, List.mem_singleton] at hmem
        exact hhead (hmem ▸ hkrest)
    rw [List.foldl_cons, emplace_of_not_mem _ hk, ih _ hnd2 hdisj2,
      List.map_cons, List.append_assoc, List.singleton_append]

theorem functor_map_move_eq (f : V → U) (m : List (K × V))
    (h : (keysOf m).Nodup) :
    functor_map_move f m = m.map (fun kv => (kv.1, f kv.2)) := by
  unfold functor_map_move
  rw [foldl_emplace_eq f m [] h (by intro k _ hk; simp [keysOf] at hk)]
  simp

theorem lookupKey_map (f : V → U) (k : K) (m : List (K × V)) :
    lookupKey k (m.map (fun kv => (kv.1, f kv.2))) =
      Option.map f (lookupKey k m) := by
  induction m with
  | nil => rfl
  | cons kv rest ih =>
    simp only [List.map_cons, lookupKey]
    by_cases h : kv.1 = k <;> simp [h, ih]

omit [DecidableEq K] in
theorem keysOf_map (f : V → U) (m : List (K × V)) :
    keysOf (m.map (fun kv => (kv.1, f kv.2))) = keysOf m := by
  simp [keysOf, List.map_map, Function.comp]

omit [DecidableEq K] in
theorem functor_map_endo_eq (f : V → V) (m : List (K × V)) :
    functor_map_endo f m = m.map (fun kv => (kv.1, f kv.2)) := by
  induction m with
  | nil => rfl
  | cons kv rest ih => simp [functor_map_endo, ih]

end UnorderedMapLemmas

/-! ## Theorems for the claims -/

/-- Claim C1: cross-tag assignment with a throwing constructor rolls back —
when the destination's tag differs from the source's and the source
alternative's copy constructor throws (`copyCtor` yields `none`), the
assignment reports the exception and the destination is exactly its
pre-assignment self: original tag, original value, never empty or partially
constructed. -/
theorem c1_cross_tag_assignment_rollback {n : Nat} {T : Fin n → Type u}
    (copyCtor : (i : Fin n) → T i → Option (T i))
    (assignOp : (i : Fin n) → T i → T i → T i)
    (dst src : sum_type n T)
    (hne : dst.tag ≠ src.tag)
    (hthrow : copyCtor src.tag src.val = none) :
    sum_type.copyAssign copyCtor assignOp dst src = (dst, true) := by
  simp only [sum_type.copyAssign, dif_neg hne, hthrow]

/-- Claim C1, witness: a two-alternative sum type, destination holding
alternative 0 with value 7, source holding alternative 1 with a value whose
copy constructor always throws; the assignment propagates the exception and
leaves the destination at alternative 0, value 7. -/
theorem c1_rollback_witness :
    ((⟨0, 7⟩ : sum_type 2 (fun _ => Nat)).tag ≠
      (⟨1, 5⟩ : sum_type 2 (fun _ => Nat)).tag) ∧
    sum_type.copyAssign (fun _ _ => none) (fun _ _ b => b)
      (⟨0, 7⟩ : sum_type 2 (fun _ => Nat)) ⟨1, 5⟩ = (⟨0, 7⟩, true) :=
  ⟨by decide,
    c1_cross_tag_assignment_rollback (fun _ _ => none) (fun _ _ b => b)
      ⟨0, 7⟩ ⟨1, 5⟩ (by decide) rfl⟩

/-- Claim C3: match with a complete handler set invokes exactly the handler
of the active alternative on the active value and returns its result (first
conjunct, for any instance and handler set); concretely, a sum type over
`{int, char}` active as `int` with value 5 has `match(h_int, h_char)` return
`h_int 5` for every `h_int` and every `h_char` — so `h_char` can never
contribute. -/
theorem c3_match_dispatch {n : Nat} {T : Fin n → Type u} {R : Type v}
    {R2 : Type w} (i : Fin n) (v : T i) (h : (j : Fin n) → T j → R)
    (hInt : Int → R2) (hChar : Char → R2) :
    sum_type.matchWith (⟨i, v⟩ : sum_type n T) h = h i v ∧
    sum_type.matchWith (⟨0, (5 : Int)⟩ : sum_type 2 ![Int, Char])
      (handlers2 hInt hChar) = hInt 5 :=
  ⟨rfl, rfl⟩

/-- Claim C2, counterexample: moving from a `maybe` holding the value `5`
does not leave the source's tag unchanged — the move constructor sets the
source's `isValid` flag to `false`, so the source no longer reports its
original active alternative. -/
theorem c2_counterexample :
    (maybe.moveConstruct (maybe.value (5 : Nat))).2.isValid ≠
      (maybe.value (5 : Nat)).isValid := by
  decide

/-- Claim C2, amended: after move construction, and after move assignment
between distinct objects, the source's `isValid` flag is always `false` —
the library clears the source's tag, so a moved-from `maybe` reports
nothing rather than its original alternative. -/
theorem c2_move_clears_source_tag {α : Type u} (m dst : maybe α) :
    (maybe.moveConstruct m).2.isValid = false ∧
    (maybe.moveAssign false dst m).2.isValid = false := by
  constructor
  · unfold maybe.moveConstruct
    by_cases h : m.isValid <;> simp [h]
  · unfold maybe.moveAssign
    by_cases h : m.isValid <;> simp [h]

/-- Claim C4: `operator==` on `maybe` returns `false` whenever the tags
(validity flags) differ, defers to the contained type's equality when both
hold values, returns `true` when both are nothing (the trivial equality of
the empty alternative), and `operator!=` is always the logical negation of
`operator==`. -/
theorem c4_equality {α : Type u} (eqA : α → α → Bool) (a b : α)
    (m1 m2 : maybe α) :
    (m1.isValid ≠ m2.isValid → maybe.beq eqA m1 m2 = false) ∧
    maybe.beq eqA (maybe.value a) (maybe.value b) = eqA a b ∧
    maybe.beq eqA (maybe.value a) (maybe.nothing α) = false ∧
    maybe.beq eqA (maybe.nothing α) (maybe.value b) = false ∧
    maybe.beq eqA (maybe.nothing α) (maybe.nothing α) = true ∧
    maybe.bne eqA m1 m2 = !(maybe.beq eqA m1 m2) := by
  refine ⟨?_, rfl, rfl, rfl, rfl, rfl⟩
  intro hne
  unfold maybe.beq
  cases h1 : m1.isValid <;> cases h2 : m2.isValid <;>
    simp_all

/-- Claim C4, witness: evaluation of the tag-differing case at a concrete
input. -/
theorem c4_equality_witness :
    ((maybe.value (3 : Nat)).isValid ≠ (maybe.nothing Nat).isValid) ∧
    maybe.beq Nat.beq (maybe.value (3 : Nat)) (maybe.nothing Nat) = false := by
  exact ⟨by decide,
    (c4_equality Nat.beq 3 3 (maybe.value 3) (maybe.nothing Nat)).1 (by decide)⟩

/-- Claim C7: self-assignment of a `maybe` (copy or move) is a no-op — the
`this == &m` check returns immediately, so the object keeps its alternative
and value, nothing is destroyed, and no exception is thrown (the copy
constructor `copyA` is never invoked, throwing or not). -/
theorem c7_self_assignment {α : Type u} (copyA : α → Option α) (x : maybe α) :
    maybe.copyAssign copyA true x x = (x, false) ∧
    maybe.moveAssign true x x = (x, x) :=
  ⟨rfl, rfl⟩

/-- Claim C9: on a `maybe` holding a value, `operator*` and `operator->`
return the contained value and leave the object unchanged; on nothing, both
throw `std::logic_error` (with the exact source messages) and also leave
the object unchanged. -/
theorem c9_deref_guarded {α : Type u} (v : α) :
    maybe.deref (maybe.value v) = (Except.ok v, maybe.value v) ∧
    maybe.arrow (maybe.value v) = (Except.ok v, maybe.value v) ∧
    maybe.deref (maybe.nothing α) =
      (Except.error (CppError.logic_error
        "Attempting to read the value of Nothing."), maybe.nothing α) ∧
    maybe.arrow (maybe.nothing α) =
      (Except.error (CppError.logic_error
        "Attempting to read teh value of Nothing."), maybe.nothing α) :=
  ⟨rfl, rfl, rfl, rfl⟩

/-- Claim C5: for an instance constructed with tag `i`, `is` at index `j` is
true exactly when `j` is `i` — in particular true at `i` itself and false at
every other index. -/
theorem c5_is_reports_active_tag {n : Nat} {T : Fin n → Type u}
    (i j : Fin n) (v : T i) :
    (sum_type.is (⟨i, v⟩ : sum_type n T) j = true ↔ j = i) ∧
    sum_type.is (⟨i, v⟩ : sum_type n T) i = true := by
  constructor
  · simp [sum_type.is, eq_comm]
  · simp [sum_type.is]

/-- Claim C6: when the active alternative has no explicit handler in the
supplied set (`h s.tag = none`), match with an `otherwise` fallback returns
the fallback's result. -/
theorem c6_match_otherwise_fallback {n : Nat} {T : Fin n → Type u}
    {R : Type v} (s : sum_type n T) (h : (i : Fin n) → Option (T i → R))
    (fallback : R) (hmiss : h s.tag = none) :
    sum_type.matchOtherwise s h fallback = fallback := by
  simp only [sum_type.matchOtherwise, hmiss]

/-- Claim C6, witness: a sum type over three alternatives `{A, B, C}`
constructed active as `B` (tag 1), matched against an explicit handler only
for `A` plus a fallback returning 1, yields the fallback's result, exactly
as in the test (src/tests/sum_type_tests.cpp lines 383-386). -/
theorem c6_otherwise_witness :
    abcHandlers (⟨1, ()⟩ : sum_type 3 (fun _ => Unit)).tag = none ∧
    sum_type.matchOtherwise (⟨1, ()⟩ : sum_type 3 (fun _ => Unit))
      abcHandlers 1 = 1 :=
  ⟨rfl, c6_match_otherwise_fallback ⟨1, ()⟩ abcHandlers 1 rfl⟩

/-- Claim C8: the classifier marks a sum-type definition trivial, and hence
constant-evaluable, exactly when every alternative is trivially copyable,
trivially movable and trivially destructible; on the test's instances,
`sum_type<int,char>` is trivial and constant-evaluable while
`sum_type<NonTrivial,char>` is neither
(src/tests/sum_type_tests.cpp lines 113-138). -/
theorem c8_triviality_classification (alts : List AltTraits) :
    (sum_type_constant_evaluable alts = true ↔
      ∀ a ∈ alts, a.trivially_copyable = true ∧ a.trivially_movable = true ∧
        a.trivially_destructible = true) ∧
    sum_type_trivial [intAlt, charAlt] = true ∧
    sum_type_constant_evaluable [intAlt, charAlt] = true ∧
    sum_type_trivial [nonTrivialAlt, charAlt] = false ∧
    sum_type_constant_evaluable [nonTrivialAlt, charAlt] = false := by
  refine ⟨?_, rfl, rfl, rfl, rfl⟩
  simp [sum_type_constant_evaluable, sum_type_trivial, List.all_eq_true,
    AltTraits.is_trivial, Bool.and_eq_true, and_assoc]

/-- Claim C8, witness: the classifier's equivalence evaluated on the test's
non-trivial instance — the classification is false, and accordingly one of
its alternatives fails a triviality trait. -/
theorem c8_triviality_witness :
    sum_type_constant_evaluable [nonTrivialAlt, charAlt] = false ∧
    ¬ ∀ a ∈ [nonTrivialAlt, charAlt], a.trivially_copyable = true ∧
      a.trivially_movable = true ∧ a.trivially_destructible = true := by
  refine ⟨(c8_triviality_classification []).2.2.2.2, ?_⟩
  intro hall
  have := (c8_triviality_classification [nonTrivialAlt, charAlt]).1.2 hall
  simp [sum_type_constant_evaluable, sum_type_trivial, AltTraits.is_trivial,
    nonTrivialAlt, charAlt] at this

/-- Claim C10: for a map with pairwise distinct keys, every overload of
`functor<unordered_map>::map` produces a map with exactly the same key set,
associating each key with `f` applied to the original value at that key;
the const-lvalue overload additionally leaves the source map unchanged. -/
theorem c10_unordered_map_functor {K : Type u} {V : Type v} {U : Type w}
    [DecidableEq K] (f : V → U) (g : V → V) (m : List (K × V))
    (hnd : (keysOf m).Nodup) :
    (functor_map_const f m).2 = m ∧
    keysOf (functor_map_const f m).1 = keysOf m ∧
    (∀ k, lookupKey k (functor_map_const f m).1 =
      Option.map f (lookupKey k m)) ∧
    keysOf (functor_map_move f m) = keysOf m ∧
    (∀ k, lookupKey k (functor_map_move f m) =
      Option.map f (lookupKey k m)) ∧
    keysOf (functor_map_endo g m) = keysOf m ∧
    (∀ k, lookupKey k (functor_map_endo g m) =
      Option.map g (lookupKey k m)) := by
  have hmove := functor_map_move_eq f m hnd
  have hconst : (functor_map_const f m).1 = functor_map_move f m := rfl
  have hendo := functor_map_endo_eq g m
  refine ⟨rfl, ?_, ?_, ?_, ?_, ?_, ?_⟩ <;>
    simp [hconst, hmove, hendo, keysOf_map, lookupKey_map]

/-- Claim C10, witness: evaluation on the concrete map
`{1 ↦ 10, 2 ↦ 20}` with `f = (+1)` and `g = (*2)`. -/
theorem c10_functor_witness :
    (keysOf [((1 : Nat), (10 : Nat)), (2, 20)]).Nodup ∧
    keysOf (functor_map_move (fun v => v + 1)
      [((1 : Nat), (10 : Nat)), (2, 20)]) =
      keysOf [((1 : Nat), (10 : Nat)), (2, 20)] :=
  ⟨by decide,
    (c10_unordered_map_functor (fun v => v + 1) (fun v => v * 2)
      [((1 : Nat), (10 : Nat)), (2, 20)] (by decide)).2.2.2.1⟩

end Ftl
